import Mathlib

/-!
Verification development for `blue_slate.py`, a single-pass CSV → HTML
generator for an athlete results page.

Strings of the Python program are modelled as `List Char` (`Str`), CSV rows
as `List Str`, and parsed CSV records (Python dicts from column name to cell
text) as association lists `List (Str × Str)`.  Python floats are modelled
as exact rationals together with the special values `inf`, `-inf`, `nan`
(`PyFloat`); fallible code returns `Except PyErr` or `Option`.  Character
classes (whitespace, digits, word characters, upper-casing) follow Python's
semantics on the ASCII range plus the common Latin-1 whitespace characters;
the program's data is ASCII markup and CSV text.
-/

namespace BlueSlate

abbrev Str := List Char

instance {α β : Type} [DecidableEq α] [DecidableEq β] : DecidableEq (Except α β) :=
  fun a b =>
    match a, b with
    | .error x, .error y =>
      if h : x = y then .isTrue (by rw [h]) else .isFalse (fun hc => h (by cases hc; rfl))
    | .ok x, .ok y =>
      if h : x = y then .isTrue (by rw [h]) else .isFalse (fun hc => h (by cases hc; rfl))
    | .error _, .ok _ => .isFalse (fun hc => by cases hc)
    | .ok _, .error _ => .isFalse (fun hc => by cases hc)


/-- A result/bio record: mapping from column name to cell string, as built by
`parse_results` / `parse_primary_bio` from a header row and a data row. -/
abbrev Record := List (Str × Str)

/-- Python `record.get(key)`: `None` when the key is absent. -/
def rget (r : Record) (k : Str) : Option Str := List.lookup k r

/-- Python `record.get(key) or ""`: missing (or `None`-valued) keys give `""`. -/
def rgetD (r : Record) (k : Str) : Str := (rget r k).getD []

/-- Whitespace as recognised by Python's `str.strip` / `\s`, restricted to the
ASCII and Latin-1 range (the program's data is ASCII). -/
def pyIsSpace (c : Char) : Bool :=
  c = ' ' ∨ c = '\t' ∨ c = '\n' ∨ c = '\r' ∨ c = '\x0b' ∨ c = '\x0c' ∨
  c = '\x1c' ∨ c = '\x1d' ∨ c = '\x1e' ∨ c = '\x1f' ∨ c = '\x85' ∨ c = ' '

/-- Python `str.strip()`: remove leading and trailing whitespace. -/
def pyStrip (s : Str) : Str :=
  ((s.dropWhile pyIsSpace).reverse.dropWhile pyIsSpace).reverse

/-- Upper-case a character (ASCII model of Python `str.upper`). -/
def asciiUpper (c : Char) : Char :=
  if 'a' ≤ c ∧ c ≤ 'z' then Char.ofNat (c.toNat - 32) else c

/-- Lower-case a character (ASCII model of Python `str.lower`). -/
def asciiLower (c : Char) : Char :=
  if 'A' ≤ c ∧ c ≤ 'Z' then Char.ofNat (c.toNat + 32) else c

/-- Python `s.upper()` (ASCII model). -/
def pyUpper (s : Str) : Str := s.map asciiUpper

/-- Python `s.lower()` (ASCII model). -/
def pyLower (s : Str) : Str := s.map asciiLower

/-- Model of `html.escape` on one character: `&`, `<`, `>`, `"`, `'` become entities. -/
def escChar (c : Char) : Str :=
  if c = '&' then ("&amp;").toList
  else if c = '<' then ("&lt;").toList
  else if c = '>' then ("&gt;").toList
  else if c = '"' then ("&quot;").toList
  else if c = '\'' then ("&#x27;").toList
  else [c]

/-- Python `html.escape(s)` (with the default `quote=True`). -/
def pyEscape : Str → Str
  | [] => []
  | c :: cs => escChar c ++ pyEscape cs

/-- The default placeholder string `"N/A"`. -/
def nACh : Str := ("N/A").toList

/-- Model of `safe(val, default)` from the source: strip the value (treating `None` as
`""`) and substitute the default when the result is blank.  Every call site of
the Python function uses the default argument `"N/A"`. -/
def safe (val : Option Str) (dflt : Str) : Str :=
  if pyStrip (val.getD []) = [] then dflt else pyStrip (val.getD [])

/-- Word characters for the `\b` boundary of the year regex (ASCII model of
`re`'s word characters: alphanumerics and underscore). -/
def isWordChar (c : Char) : Bool := c.isAlphanum ∨ c = '_'

/-- Does `re.search(r"\b(20\d{2})\b", ·)` match at the start of `s`, the
previous character (if any) being `prev`?  Returns the matched group. -/
def yearHere (prev : Option Char) (s : Str) : Option Str :=
  match s with
  | '2' :: '0' :: d1 :: d2 :: rest =>
    if d1.isDigit && d2.isDigit &&
       (match prev with | none => true | some p => ! isWordChar p) &&
       (match rest with | [] => true | e :: _ => ! isWordChar e)
    then some ['2', '0', d1, d2] else none
  | _ => none

/-- Scan left to right for the first match of `\b(20\d{2})\b`. -/
def findYearAux (prev : Option Char) : Str → Option Str
  | [] => none
  | c :: rest =>
    match yearHere prev (c :: rest) with
    | some y => some y
    | none => findYearAux (some c) rest

/-- Model of `year_from_date` from the source: first `\b(20\d{2})\b` match of the date
string, or `""` when the string is empty or no match exists. -/
def year_from_date (dateStr : Str) : Str :=
  if dateStr = [] then [] else (findYearAux none dateStr).getD []

/-- The `IMAGE_BASE` configuration constant from the source. -/
def IMAGE_BASE : Str := ("https://si339.github.io/ClientData/21615274/").toList

/-- The `DEFAULT_IMAGE_URL` configuration constant from the source. -/
def DEFAULT_IMAGE_URL : Str :=
  ("https://raw.githubusercontent.com/vannesschia/SI338/main/images/skyline_logo.jpg").toList

/-- Model of `image_url` from the source, with the two module-level configuration
constants made explicit parameters (the source reads the globals
`IMAGE_BASE` and `DEFAULT_IMAGE_URL`). -/
def image_urlWith (imageBase defaultImageUrl : Str) (photoFilename : Option Str) : Str :=
  if pyStrip (photoFilename.getD []) = [] ∨ pyUpper (pyStrip (photoFilename.getD [])) = nACh then
    if pyStrip defaultImageUrl = [] then [] else pyStrip defaultImageUrl
  else imageBase ++ pyStrip (photoFilename.getD [])

/-- The function `image_url` at the source's configuration constants. -/
def image_url (photoFilename : Option Str) : Str :=
  image_urlWith IMAGE_BASE DEFAULT_IMAGE_URL photoFilename

/-- Model of `image_alt_text(record, fallback)` from the source: prefer a non-blank
stripped `AltText` field, else the fallback. -/
def image_alt_text (r : Record) (fallback : Str) : Str :=
  if pyStrip (rgetD r (("AltText").toList)) = [] then fallback
  else pyStrip (rgetD r (("AltText").toList))

/-! ### Python numeric string parsing (`int(s)`, `float(s)`) -/

/-- A Python float value.  Every numeric string accepted by `float` denotes
an exact decimal, kept as `finite num shift`, denoting `num / 10 ^ shift`
(see `decVal`); the special values `inf`, `-inf`, `nan` are separate. -/
inductive PyFloat where
  | finite : Int → Nat → PyFloat
  | pinf : PyFloat
  | ninf : PyFloat
  | nan : PyFloat
deriving DecidableEq

/-- The rational value denoted by `PyFloat.finite num shift`. -/
def decVal (num : Int) (shift : Nat) : ℚ := (num : ℚ) / (10 : ℚ) ^ shift

/-- Add an integer to a Python float (the special values absorb). -/
def PyFloat.addInt (n : Int) : PyFloat → PyFloat
  | .finite num s => .finite (n * ((10 ^ s : ℕ) : ℤ) + num) s
  | x => x

/-- Decimal digit value. -/
def dval (c : Char) : Nat := c.toNat - 48

/-- Consume a maximal run of decimal digits that may contain single
underscores strictly between digits (Python numeric literal grouping: an
underscore is consumed only after at least one digit, `cnt ≠ 0`, and only
when a digit follows); returns the value, the number of digits consumed,
and the rest of the string. -/
def takeDigitsU (acc cnt : Nat) : Str → Nat × Nat × Str
  | '_' :: c :: rest =>
    if cnt ≠ 0 ∧ c.isDigit then takeDigitsU (acc * 10 + dval c) (cnt + 1) rest
    else (acc, cnt, '_' :: c :: rest)
  | c :: rest =>
    if c.isDigit then takeDigitsU (acc * 10 + dval c) (cnt + 1) rest
    else (acc, cnt, c :: rest)
  | [] => (acc, cnt, [])

/-- Whole-string run of digits (with underscore grouping), as used by
Python `int`: every character must be consumed and at least one digit read. -/
def parseDigits (s : Str) : Option Nat :=
  match takeDigitsU 0 0 s with
  | (v, cnt, []) => if cnt = 0 then none else some v
  | _ => none

/-- Python `int(s)` on strings: optional surrounding whitespace, optional
sign, then decimal digits (underscore grouping allowed); anything else
raises `ValueError`, modelled as `none`. -/
def pyIntParse (s : Str) : Option Int :=
  let t := pyStrip s
  match t with
  | '+' :: rest => (parseDigits rest).map Int.ofNat
  | '-' :: rest => (parseDigits rest).map (fun n => -(n : Int))
  | rest => (parseDigits rest).map Int.ofNat

/-- Parse the exponent suffix of a float literal (after `e`/`E`):
optional sign and a digit run. -/
def parseExpPart (s : Str) : Option Int :=
  let (sign, u) : Bool × Str :=
    match s with
    | '+' :: r => (false, r)
    | '-' :: r => (true, r)
    | r => (false, r)
  match parseDigits u with
  | none => none
  | some e => some (if sign then -(e : Int) else (e : Int))

/-- Scale the decimal `num / 10 ^ shift` by `10 ^ e`. -/
def applyExp (num : Int) (shift : Nat) (e : Int) : Int × Nat :=
  match e with
  | .ofNat k => (num * ((10 ^ k : ℕ) : ℤ), shift)
  | .negSucc k => (num, shift + (k + 1))

/-- Parse the body of a finite Python float literal (no sign, no padding):
`digits [. digits] [exp]`, `. digits [exp]`, with underscore grouping.
Returns the exact decimal as mantissa and power-of-ten shift. -/
def parseFiniteFloat (u : Str) : Option (Int × Nat) :=
  let (ip, ic, r1) := takeDigitsU 0 0 u
  match r1 with
  | '.' :: r =>
    let (fp, fc, r2) := takeDigitsU 0 0 r
    if ic = 0 ∧ fc = 0 then none
    else
      let num : Int := Int.ofNat (ip * 10 ^ fc + fp)
      match r2 with
      | [] => some (num, fc)
      | 'e' :: r3 => (parseExpPart r3).map (applyExp num fc)
      | 'E' :: r3 => (parseExpPart r3).map (applyExp num fc)
      | _ => none
  | 'e' :: r3 =>
    if ic = 0 then none else (parseExpPart r3).map (applyExp (Int.ofNat ip) 0)
  | 'E' :: r3 =>
    if ic = 0 then none else (parseExpPart r3).map (applyExp (Int.ofNat ip) 0)
  | [] => if ic = 0 then none else some (Int.ofNat ip, 0)
  | _ => none

/-- Python `float(s)` on strings: optional surrounding whitespace, optional
sign, then a finite literal or one of `inf`, `infinity`, `nan`
(case-insensitive); anything else raises `ValueError`, modelled as `none`. -/
def pyFloatParse (s : Str) : Option PyFloat :=
  let t := pyStrip s
  match t with
  | [] => none
  | _ =>
    let (neg, u) : Bool × Str :=
      match t with
      | '+' :: r => (false, r)
      | '-' :: r => (true, r)
      | r => (false, r)
    if pyLower u = ("inf").toList ∨ pyLower u = ("infinity").toList then
      some (if neg then .ninf else .pinf)
    else if pyLower u = ("nan").toList then some .nan
    else
      match parseFiniteFloat u with
      | some (num, s) => some (.finite (if neg then -num else num) s)
      | none => none

/-- Split a string at the first occurrence of `sep` (Python
`s.split(sep, 1)` when `sep` occurs). -/
def splitFirst (sep : Char) : Str → Option (Str × Str)
  | [] => none
  | c :: rest =>
    if c = sep then some ([], rest)
    else (splitFirst sep rest).map (fun p => (c :: p.1, p.2))

/-- The body of `parse_time_to_seconds` after `t = time_str.strip()`:
`""`/`"N/A"` give `None`; two colons parse as `H:MM:SS(.ms)`, one colon as
`MM:SS(.ms)`, otherwise bare seconds via `float`; any `ValueError` is caught
and gives `None`. -/
def parseTimeStripped (t : Str) : Option PyFloat :=
  if t = [] ∨ pyUpper t = nACh then none
  else if t.count ':' = 2 then
    match splitFirst ':' t with
    | some (a, r) =>
      match splitFirst ':' r with
      | some (b, c) =>
        match pyIntParse a, pyIntParse b, pyFloatParse c with
        | some x, some y, some f => some (f.addInt (x * 3600 + y * 60))
        | _, _, _ => none
      | none => none
    | none => none
  else if t.count ':' = 1 then
    match splitFirst ':' t with
    | some (a, b) =>
      match pyIntParse a, pyFloatParse b with
      | some x, some f => some (f.addInt (x * 60))
      | _, _ => none
    | none => none
  else pyFloatParse t

/-- Model of `parse_time_to_seconds` from the source (see `parseTimeStripped`). -/
def parse_time_to_seconds (timeStr : Str) : Option PyFloat :=
  parseTimeStripped (pyStrip timeStr)

/-! ### Date parsing (`datetime.strptime` against the source's format list) -/

/-- Exactly `n` decimal digits (the `\d{n}` of `%Y` / `%y`). -/
def parseNDigits (n : Nat) (s : Str) : Option (Nat × Str) :=
  let pre := s.take n
  if pre.length = n ∧ pre.all Char.isDigit then
    some (pre.foldl (fun a c => a * 10 + dval c) 0, s.drop n)
  else none

/-- The `%m` month field: regex `1[0-2]|0[1-9]|[1-9]`. -/
def parseMonth2 : Str → Option (Nat × Str)
  | a :: b :: rest =>
    if a = '1' && (b = '0' || b = '1' || b = '2') then some (10 + dval b, rest)
    else if a = '0' && b.isDigit && b != '0' then some (dval b, rest)
    else if a.isDigit && a != '0' then some (dval a, b :: rest)
    else none
  | [a] => if a.isDigit && a != '0' then some (dval a, []) else none
  | [] => none

/-- The `%d` day field: regex `3[01]|[12]\d|0[1-9]|[1-9]`. -/
def parseDay2 : Str → Option (Nat × Str)
  | a :: b :: rest =>
    if a = '3' && (b = '0' || b = '1') then some (30 + dval b, rest)
    else if (a = '1' || a = '2') && b.isDigit then some (dval a * 10 + dval b, rest)
    else if a = '0' && b.isDigit && b != '0' then some (dval b, rest)
    else if a.isDigit && a != '0' then some (dval a, b :: rest)
    else none
  | [a] => if a.isDigit && a != '0' then some (dval a, []) else none
  | [] => none

/-- A literal character of the format string. -/
def parseLit (c : Char) : Str → Option Str
  | d :: rest => if d = c then some rest else none
  | [] => none

/-- A whitespace character in the format string matches `\s+`. -/
def parseWs1 (s : Str) : Option Str :=
  if s.takeWhile pyIsSpace = [] then none else some (s.dropWhile pyIsSpace)

/-- Month names, matched case-insensitively. -/
def matchMonthName : List (Str × Nat) → Str → Option (Nat × Str)
  | [], _ => none
  | (nm, v) :: rest, s =>
    if pyLower (s.take nm.length) = nm then some (v, s.drop nm.length)
    else matchMonthName rest s

/-- Abbreviated month names for `%b` (C locale). -/
def monthAbbrNames : List (Str × Nat) :=
  [(("jan").toList, 1), (("feb").toList, 2), (("mar").toList, 3),
   (("apr").toList, 4), (("may").toList, 5), (("jun").toList, 6),
   (("jul").toList, 7), (("aug").toList, 8), (("sep").toList, 9),
   (("oct").toList, 10), (("nov").toList, 11), (("dec").toList, 12)]

/-- Full month names for `%B` (C locale). -/
def monthFullNames : List (Str × Nat) :=
  [(("january").toList, 1), (("february").toList, 2), (("march").toList, 3),
   (("april").toList, 4), (("may").toList, 5), (("june").toList, 6),
   (("july").toList, 7), (("august").toList, 8), (("september").toList, 9),
   (("october").toList, 10), (("november").toList, 11), (("december").toList, 12)]

/-- Days in a month (proleptic Gregorian, as `datetime.date`). -/
def daysInMonth (y m : Nat) : Nat :=
  if m = 2 then (if y % 4 = 0 ∧ (y % 100 ≠ 0 ∨ y % 400 = 0) then 29 else 28)
  else if m = 4 ∨ m = 6 ∨ m = 9 ∨ m = 11 then 30 else 31

/-- The `datetime.date` constructor validation. -/
def validDate (y m d : Nat) : Bool :=
  decide (1 ≤ y ∧ y ≤ 9999 ∧ 1 ≤ m ∧ m ≤ 12 ∧ 1 ≤ d ∧ d ≤ daysInMonth y m)

/-- Require the whole input consumed (strptime's "unconverted data remains")
and the date valid (`datetime.date` raises otherwise). -/
def mkDate (y m d : Nat) (rest : Str) : Option (Nat × Nat × Nat) :=
  if rest = [] ∧ validDate y m d then some (y, m, d) else none

/-- Model of `strptime(ds, "%Y-%m-%d")`, as a date triple. -/
def fmtYmd (s : Str) : Option (Nat × Nat × Nat) := do
  let (y, r1) ← parseNDigits 4 s
  let r2 ← parseLit '-' r1
  let (m, r3) ← parseMonth2 r2
  let r4 ← parseLit '-' r3
  let (d, r5) ← parseDay2 r4
  mkDate y m d r5

/-- Model of `strptime(ds, "%m/%d/%Y")`. -/
def fmtMdY4 (s : Str) : Option (Nat × Nat × Nat) := do
  let (m, r1) ← parseMonth2 s
  let r2 ← parseLit '/' r1
  let (d, r3) ← parseDay2 r2
  let r4 ← parseLit '/' r3
  let (y, r5) ← parseNDigits 4 r4
  mkDate y m d r5

/-- Model of `strptime(ds, "%m/%d/%y")`: two-digit years 00–68 mean 2000–2068,
69–99 mean 1969–1999. -/
def fmtMdy2 (s : Str) : Option (Nat × Nat × Nat) := do
  let (m, r1) ← parseMonth2 s
  let r2 ← parseLit '/' r1
  let (d, r3) ← parseDay2 r2
  let r4 ← parseLit '/' r3
  let (yy, r5) ← parseNDigits 2 r4
  mkDate (if yy ≤ 68 then 2000 + yy else 1900 + yy) m d r5

/-- Model of `strptime(ds, "%b %d %Y")`. -/
def fmtBdY (s : Str) : Option (Nat × Nat × Nat) := do
  let (m, r1) ← matchMonthName monthAbbrNames s
  let r2 ← parseWs1 r1
  let (d, r3) ← parseDay2 r2
  let r4 ← parseWs1 r3
  let (y, r5) ← parseNDigits 4 r4
  mkDate y m d r5

/-- Model of `strptime(ds, "%B %d %Y")`. -/
def fmtBFullY (s : Str) : Option (Nat × Nat × Nat) := do
  let (m, r1) ← matchMonthName monthFullNames s
  let r2 ← parseWs1 r1
  let (d, r3) ← parseDay2 r2
  let r4 ← parseWs1 r3
  let (y, r5) ← parseNDigits 4 r4
  mkDate y m d r5

/-- The fixed ordered format list the source tries. -/
def dateFormats : List (Str → Option (Nat × Nat × Nat)) :=
  [fmtYmd, fmtMdY4, fmtMdy2, fmtBdY, fmtBFullY]

/-- Try the formats in order, first success wins. -/
def tryFormats : List (Str → Option (Nat × Nat × Nat)) → Str → Option (Nat × Nat × Nat)
  | [], _ => none
  | f :: fs, ds =>
    match f ds with
    | some v => some v
    | none => tryFormats fs ds

/-- Decimal digits of a natural number, most significant first. -/
def digitChar (n : Nat) : Char :=
  match n with
  | 0 => '0' | 1 => '1' | 2 => '2' | 3 => '3' | 4 => '4'
  | 5 => '5' | 6 => '6' | 7 => '7' | 8 => '8' | _ => '9'

/-- Decimal digits, recursion bounded by a fuel counter (any fuel above the
number itself is enough, see `natDigitsAux_fuel`). -/
def natDigitsAux : Nat → Nat → Str
  | 0, _ => []
  | fuel + 1, n =>
    if n < 10 then [digitChar n]
    else natDigitsAux fuel (n / 10) ++ [digitChar (n % 10)]

/-- Decimal representation of a natural number (Python `str(n)` for `n ≥ 0`). -/
def natDigits (n : Nat) : Str := natDigitsAux (n + 1) n

/-- Zero-pad a decimal representation to width `w`. -/
def padZeros (w n : Nat) : Str :=
  List.replicate (w - (natDigits n).length) '0' ++ natDigits n

/-- Model of `date(y, m, d).isoformat()`. -/
def isoDate (y m d : Nat) : Str :=
  padZeros 4 y ++ '-' :: (padZeros 2 m ++ '-' :: padZeros 2 d)

/-- The `_sort` field of a race-series point: the ISO form of the first
format that parses the date, `""` when none does. -/
def dateSortKey (ds : Str) : Str :=
  match tryFormats dateFormats ds with
  | some (y, m, d) => isoDate y m d
  | none => []

/-! ### Race series (`build_race_series`) -/

/-- Column-name keys used by the builders. -/
def meetNameKey : Str := ("Meet Name").toList

/-- The `Date` column key. -/
def dateKey : Str := ("Date").toList

/-- The `Time` column key. -/
def timeKey : Str := ("Time").toList

/-- The `Grade` column key. -/
def gradeKey : Str := ("Grade").toList

/-- The `Overall Place` column key. -/
def overallPlaceKey : Str := ("Overall Place").toList

/-- The `PhotoFileName` column key. -/
def photoFileNameKey : Str := ("PhotoFileName").toList

/-- One entry of the race-series payload (`{date, meet, time, seconds}`). -/
structure RacePoint where
  date : Str
  meet : Str
  time : Str
  seconds : Option PyFloat
deriving DecidableEq

/-- A race point together with its `_sort` key (dropped before output). -/
structure SortPoint where
  pt : RacePoint
  sortKey : Str
deriving DecidableEq

/-- The record filter both builders apply: keep everything when the year
filter is unset, else keep records whose `year_from_date` equals it. -/
def keepRecord (yf : Option Str) (r : Record) : Bool :=
  match yf with
  | none => true
  | some y => decide (year_from_date (pyStrip (rgetD r dateKey)) = y)

/-- Records surviving the optional season filter, order preserved. -/
def filteredRecords (yf : Option Str) (recs : List Record) : List Record :=
  recs.filter (keepRecord yf)

/-- Build one race-series point (with its sort key) from a record. -/
def toSortPoint (r : Record) : SortPoint :=
  let meet := safe (rget r meetNameKey) nACh
  let date := safe (rget r dateKey) nACh
  let time := safe (rget r timeKey) nACh
  let sec := parse_time_to_seconds time
  let sk := dateSortKey (pyStrip (rgetD r dateKey))
  ⟨⟨date, meet, time, sec⟩, sk⟩

/-- The unsorted point list of `build_race_series`. -/
def buildPoints (yf : Option Str) (recs : List Record) : List SortPoint :=
  (filteredRecords yf recs).map toSortPoint

/-- Python string `<=` (lexicographic by code point). -/
def strLE : Str → Str → Bool
  | [], _ => true
  | _ :: _, [] => false
  | a :: as, b :: bs =>
    if a.toNat < b.toNat then true
    else if b.toNat < a.toNat then false
    else strLE as bs

/-- The sort relation of `points.sort(key=lambda p: (p["_sort"] == "", p["_sort"]))`:
ascending lexicographic on the pair (is-empty flag, key string). -/
def keyLE (p q : SortPoint) : Bool :=
  (! decide (p.sortKey = []) && decide (q.sortKey = [])) ||
  (decide (p.sortKey = []) == decide (q.sortKey = []) && strLE p.sortKey q.sortKey)

/-- Strict version of `keyLE`. -/
def keyLT (p q : SortPoint) : Bool := keyLE p q && ! keyLE q p

/-- Insert an element after every already-placed element strictly below it
(and hence before every element with an equal or larger key): the insertion
step of a stable insertion sort. -/
def insertKey (x : SortPoint) : List SortPoint → List SortPoint
  | [] => [x]
  | y :: ys => if keyLT y x then y :: insertKey x ys else x :: y :: ys

/-- Stable sort by `keyLE`, modelling Python's stable `list.sort`: each
element is inserted before all later-input elements with an equal key, so
equal keys keep their input order, and the result is sorted.  A stable
sorted permutation is unique, so this agrees with CPython's sort. -/
def stableSortKey : List SortPoint → List SortPoint
  | [] => []
  | x :: xs => insertKey x (stableSortKey xs)

/-- Model of `build_race_series` from the source, with the year filter explicit:
filter, build points, stable-sort by the key pair, drop the sort key. -/
def build_race_series (yf : Option Str) (recs : List Record) : List RacePoint :=
  (stableSortKey (buildPoints yf recs)).map SortPoint.pt

/-! ### Meet cards (`build_meet_cards`) -/

/-- The per-card details-panel identifier `race-details-{i}`. -/
def detailsId (i : Nat) : Str := ("race-details-").toList ++ natDigits i

/-- The per-card heading identifier `meet-{i}-title`. -/
def titleId (i : Nat) : Str := ("meet-").toList ++ natDigits i ++ ("-title").toList

/-- The image fragment of a card: an `<img>` with escaped `src` and the raw
alt text when a source URL resolves, else a "No image available" paragraph. -/
def imgHtmlOf (r : Record) (meet : Str) : Str :=
  if image_url (some (pyStrip (rgetD r photoFileNameKey))) = [] then
    ("<p>No image available.</p>").toList
  else
    ("<img src=\"").toList ++
    pyEscape (image_url (some (pyStrip (rgetD r photoFileNameKey)))) ++
    ("\" alt=\"").toList ++
    image_alt_text r (("Photo from ").toList ++ meet ++ (".").toList) ++
    ("\" loading=\"lazy\" decoding=\"async\">").toList

/-- One meet card, the f-string of the source with index `i` (1-based).
The fixed text is split so that each interpolation site sits between its own
literals; the concatenation of the literals is exactly the source f-string. -/
def meetCard (i : Nat) (r : Record) : Str :=
  ("\n        <article class=\"meet-card\" aria-labelledby=\"").toList ++ titleId i ++
  ("\">\n          ").toList ++
  (("<h3 id=\"").toList ++ titleId i ++ ("\">").toList ++
    pyEscape (safe (rget r meetNameKey) nACh) ++ ("</h3>").toList) ++
  ("\n\n          <div class=\"spacer\">\n            ").toList ++
  imgHtmlOf r (safe (rget r meetNameKey) nACh) ++
  ("\n          </div>\n\n          <button type=\"button\" class=\"open-panel\" aria-expanded=\"false\" aria-controls=\"").toList ++ detailsId i ++
  ("\">\n            More info\n          </button>\n\n          <div id=\"").toList ++ detailsId i ++
  ("\" class=\"race-details\" hidden>\n            ").toList ++
  (("<p><strong>Date:</strong> ").toList ++ pyEscape (safe (rget r dateKey) nACh) ++ ("</p>").toList) ++
  ("\n            ").toList ++
  (("<p><strong>Time:</strong> ").toList ++ pyEscape (safe (rget r timeKey) nACh) ++ ("</p>").toList) ++
  ("\n            ").toList ++
  (("<p><strong>Grade:</strong> ").toList ++ pyEscape (safe (rget r gradeKey) nACh) ++ ("</p>").toList) ++
  ("\n            ").toList ++
  (("<p><strong>Overall place:</strong> ").toList ++ pyEscape (safe (rget r overallPlaceKey) nACh) ++ ("</p>").toList) ++
  ("\n          </div>\n        </article>\n").toList

/-- The card list: `enumerate(filtered, start=1)` over the filtered records. -/
def buildCardsFrom (i : Nat) : List Record → List Str
  | [] => []
  | r :: rs => meetCard i r :: buildCardsFrom (i + 1) rs

/-- Python `"".join(cards)`. -/
def concatAll : List Str → Str
  | [] => []
  | s :: rest => s ++ concatAll rest

/-- The empty-input placeholder. -/
def noMeetsHtml : Str := ("<p>No meets found.</p>").toList

/-- Model of `build_meet_cards` from the source, with the year filter explicit. -/
def build_meet_cards (yf : Option Str) (recs : List Record) : Str :=
  if buildCardsFrom 1 (filteredRecords yf recs) = [] then noMeetsHtml
  else concatAll (buildCardsFrom 1 (filteredRecords yf recs))

/-! ### CSV section reader (`read_sections`) -/

/-- The fatal error kinds of the program.  `formatError` models the
`ValueError` the source raises for missing CSV markers / template anchors
(the spec's `FormatError`); `indexError` models Python `IndexError` from
out-of-range list indexing; `reError` models `re.error`. -/
inductive PyErr where
  | formatError : PyErr
  | indexError : PyErr
  | reError : PyErr
deriving DecidableEq

/-- The `"Bio"` marker cell. -/
def bioMarker : Str := ("Bio").toList

/-- The `"Results"` marker cell. -/
def resultsMarker : Str := ("Results").toList

/-- Model of `r and r[0].strip() == name`: a non-empty row whose first cell strips to
the marker. -/
def isMarkerRow (name : Str) (row : List Str) : Bool :=
  match row with
  | [] => false
  | c :: _ => decide (pyStrip c = name)

/-- Model of `read_sections` from the source, on the already-read row list: locate the
first `Bio` and `Results` marker rows, raise `ValueError` (`formatError`)
when either is missing, then take the row after each marker as its header
(Python list indexing: `IndexError` when out of range) and slice the data
rows. -/
def read_sections (rows : List (List Str)) :
    Except PyErr (List Str × List (List Str) × List Str × List (List Str)) :=
  match rows.findIdx? (isMarkerRow bioMarker), rows.findIdx? (isMarkerRow resultsMarker) with
  | some b, some res =>
    match rows[b + 1]? with
    | none => .error .indexError
    | some bioHeader =>
      let bioRows := (rows.drop (b + 2)).take (res - (b + 2))
      match rows[res + 1]? with
      | none => .error .indexError
      | some resHeader => .ok (bioHeader, bioRows, resHeader, rows.drop (res + 2))
  | _, _ => .error .formatError

/-! ### Template injection (`inject_cards_into_template`) -/

/-- Strip a literal from the front of a string, or fail. -/
def dropPre : Str → Str → Option Str
  | [], s => some s
  | _ :: _, [] => none
  | l :: ls, c :: cs => if c = l then dropPre ls cs else none

/-- The `id="..."` literal of the anchor regex. -/
def idLit (idStr : Str) : Str := ("id=\"").toList ++ idStr ++ ("\"").toList

/-- Match the regex `<div\s+id="IDSTR"[^>]*>` at the start of `s`; returns
the matched tag text and the remainder after it. -/
def tagMatchAt (idStr : Str) (s : Str) : Option (Str × Str) :=
  match dropPre (("<div").toList) s with
  | none => none
  | some r1 =>
    if r1.takeWhile pyIsSpace = [] then none
    else
      match dropPre (idLit idStr) (r1.dropWhile pyIsSpace) with
      | none => none
      | some r3 =>
        match r3.dropWhile (· != '>') with
        | '>' :: rest =>
          some ((("<div").toList) ++ r1.takeWhile pyIsSpace ++ idLit idStr ++
                r3.takeWhile (· != '>') ++ ['>'], rest)
        | _ => none

/-- Model of `re.search` for the anchor tag: leftmost match, split as
(text before, matched tag, text after). -/
def findDivTag (idStr : Str) : Str → Option (Str × Str × Str)
  | [] => none
  | c :: rest =>
    match tagMatchAt idStr (c :: rest) with
    | some (tag, after) => some ([], tag, after)
    | none =>
      match findDivTag idStr rest with
      | some (p, t, a) => some (c :: p, t, a)
      | none => none

/-- The meet-grid anchor identifier. -/
def meetGridId : Str := ("meet-grid").toList

/-- The performance-panel anchor identifier. -/
def performancePanelId : Str := ("performance-panel").toList

/-- Model of `inject_cards_into_template` from the source: everything up to the end
of the meet-grid opening tag, a newline, the cards, a newline, then
everything from the start of the performance-panel tag onwards.
`ValueError` (`formatError`) when either anchor is missing. -/
def inject_cards_into_template (template cards : Str) : Except PyErr Str :=
  match findDivTag meetGridId template with
  | none => .error .formatError
  | some (pre1, tag1, _) =>
    match findDivTag performancePanelId template with
    | none => .error .formatError
    | some (_, tag2, rest2) =>
      .ok (pre1 ++ tag1 ++ '\n' :: (cards ++ '\n' :: (tag2 ++ rest2)))

/-! ### Heading replacement (`replace_first_h1`) -/

/-- One compiled item of a `re.sub` replacement template: a literal
character, or a reference to group 0 (the whole match). -/
inductive ReplItem where
  | lit : Char → ReplItem
  | grp0 : ReplItem
deriving DecidableEq

/-- Is `c` an octal digit? -/
def isOctalDigit (c : Char) : Bool := '0' ≤ c && c ≤ '7'

/-- Compile a `re.sub` replacement template for the group-less pattern
`<h1>.*?</h1>`: backslash escapes are processed (`\n`, `\t`, …, `\\`,
octal `\0..`), `\g<0>` refers to the whole match, any other group
reference or unknown ASCII-letter escape raises `re.error`.  Recursion is
bounded by a fuel counter; every step consumes at least one character, so
any fuel above the length is enough (`pyReplCompileAux_fuel`). -/
def pyReplCompileAux : Nat → Str → Except PyErr (List ReplItem)
  | 0, _ => .error .reError
  | _ + 1, [] => .ok []
  | fuel + 1, c0 :: rest =>
    if c0 = '\\' then
      match rest with
      | [] => .error .reError
      | c :: cs =>
        if c = '\\' then (pyReplCompileAux fuel cs).map (.lit '\\' :: ·)
        else if c = 'n' then (pyReplCompileAux fuel cs).map (.lit '\n' :: ·)
        else if c = 't' then (pyReplCompileAux fuel cs).map (.lit '\t' :: ·)
        else if c = 'r' then (pyReplCompileAux fuel cs).map (.lit '\r' :: ·)
        else if c = 'f' then (pyReplCompileAux fuel cs).map (.lit '\x0c' :: ·)
        else if c = 'v' then (pyReplCompileAux fuel cs).map (.lit '\x0b' :: ·)
        else if c = 'a' then (pyReplCompileAux fuel cs).map (.lit '\x07' :: ·)
        else if c = 'b' then (pyReplCompileAux fuel cs).map (.lit '\x08' :: ·)
        else if c = 'g' then
          match cs with
          | '<' :: cs2 =>
            match splitFirst '>' cs2 with
            | some (nm, cs3) =>
              if nm = ['0'] then (pyReplCompileAux fuel cs3).map (.grp0 :: ·)
              else .error .reError
            | none => .error .reError
          | _ => .error .reError
        else if c = '0' then
          match cs with
          | d1 :: d2 :: cs2 =>
            if isOctalDigit d1 && isOctalDigit d2 then
              (pyReplCompileAux fuel cs2).map (.lit (Char.ofNat (dval d1 * 8 + dval d2)) :: ·)
            else if isOctalDigit d1 then
              (pyReplCompileAux fuel (d2 :: cs2)).map (.lit (Char.ofNat (dval d1)) :: ·)
            else
              (pyReplCompileAux fuel (d1 :: d2 :: cs2)).map (.lit '\x00' :: ·)
          | [d1] =>
            if isOctalDigit d1 then .ok [.lit (Char.ofNat (dval d1))]
            else (pyReplCompileAux fuel [d1]).map (.lit '\x00' :: ·)
          | [] => .ok [.lit '\x00']
        else if c.isDigit then .error .reError
        else if c.isAlpha then .error .reError
        else (pyReplCompileAux fuel cs).map (fun l => .lit '\\' :: .lit c :: l)
    else (pyReplCompileAux fuel rest).map (.lit c0 :: ·)

/-- Compile a `re.sub` replacement template (see `pyReplCompileAux`). -/
def pyReplCompile (s : Str) : Except PyErr (List ReplItem) :=
  pyReplCompileAux (s.length + 1) s

/-- Expand a compiled replacement template against the matched text. -/
def expandItems (matched : Str) : List ReplItem → Str
  | [] => []
  | .lit c :: rest => c :: expandItems matched rest
  | .grp0 :: rest => matched ++ expandItems matched rest

/-- First index at which `pat` occurs as a prefix of a suffix of the scanned
string (for non-empty `pat`, the index of its first occurrence). -/
def findSubAux (pat : Str) (i : Nat) : Str → Option Nat
  | [] => none
  | c :: rest =>
    if (dropPre pat (c :: rest)).isSome then some i
    else findSubAux pat (i + 1) rest

/-- First occurrence index of `pat` in `s`. -/
def findSub (pat s : Str) : Option Nat := findSubAux pat 0 s

/-- The literal `<h1>`. -/
def h1Open : Str := ("<h1>").toList

/-- The literal `</h1>`. -/
def h1Close : Str := ("</h1>").toList

/-- Model of `replace_first_h1` from the source: do nothing for a blank name;
otherwise `re.sub(r"<h1>.*?</h1>", f"<h1>{escape(name.strip())}</h1>", doc,
count=1, flags=DOTALL)`.  The replacement string goes through `re`'s
template compilation (`pyReplCompile`); the non-greedy first match spans the
first `<h1>` through the first `</h1>` after it, and an unmatched document
is returned unchanged. -/
def replace_first_h1 (docHtml newName : Str) : Except PyErr Str :=
  if pyStrip newName = [] then .ok docHtml
  else
    let repl := h1Open ++ pyEscape (pyStrip newName) ++ h1Close
    match pyReplCompile repl with
    | .error e => .error e
    | .ok items =>
      match findSub h1Open docHtml with
      | none => .ok docHtml
      | some i =>
        match findSub h1Close (docHtml.drop (i + 4)) with
        | none => .ok docHtml
        | some j =>
          let matched := (docHtml.drop i).take (4 + j + 5)
          .ok (docHtml.take i ++ expandItems matched items ++ docHtml.drop (i + 4 + j + 5))

/-! ## Supporting lemmas -/

theorem dropPre_sound : ∀ (lit s r : Str), dropPre lit s = some r → s = lit ++ r := by
  intro lit
  induction lit with
  | nil =>
    intro s r h
    simp only [dropPre, Option.some_inj] at h
    simp [h]
  | cons l ls ih =>
    intro s r h
    cases s with
    | nil => simp [dropPre] at h
    | cons c cs =>
      by_cases hc : c = l
      · rw [dropPre, if_pos hc] at h
        have := ih cs r h
        simp [hc, this]
      · rw [dropPre, if_neg hc] at h
        cases h

theorem tagMatchAt_sound (idStr s tag rest : Str)
    (h : tagMatchAt idStr s = some (tag, rest)) : s = tag ++ rest := by
  rw [tagMatchAt] at h
  split at h
  · exact Option.noConfusion h
  · rename_i r1 h1
    split at h
    · exact Option.noConfusion h
    · split at h
      · exact Option.noConfusion h
      · rename_i r3 h2
        split at h
        · rename_i rest' h3
          simp only [Option.some_inj, Prod.mk.injEq] at h
          obtain ⟨htag, hrest⟩ := h
          have e1 := dropPre_sound _ _ _ h1
          have e2 := dropPre_sound _ _ _ h2
          have e3 : r1.takeWhile pyIsSpace ++ r1.dropWhile pyIsSpace = r1 :=
            List.takeWhile_append_dropWhile _ _
          have e4 : r3.takeWhile (· != '>') ++ r3.dropWhile (· != '>') = r3 :=
            List.takeWhile_append_dropWhile _ _
          subst htag hrest
          rw [e1]
          conv_lhs => rw [← e3, e2, ← e4, h3]
          simp
        · exact Option.noConfusion h

theorem findDivTag_sound (idStr : Str) :
    ∀ (s p t a : Str), findDivTag idStr s = some (p, t, a) → s = p ++ t ++ a := by
  intro s
  induction s with
  | nil => intro p t a h; simp [findDivTag] at h
  | cons c rest ih =>
    intro p t a h
    rw [findDivTag] at h
    cases h1 : tagMatchAt idStr (c :: rest) with
    | some pr =>
      rw [h1] at h
      obtain ⟨tag, after⟩ := pr
      simp only [Option.some_inj, Prod.mk.injEq] at h
      obtain ⟨hp, ht, ha⟩ := h
      subst hp ht ha
      simpa using tagMatchAt_sound _ _ _ _ h1
    | none =>
      rw [h1] at h
      cases h2 : findDivTag idStr rest with
      | none => rw [h2] at h; cases h
      | some pr2 =>
        rw [h2] at h
        obtain ⟨p', t', a'⟩ := pr2
        simp only [Option.some_inj, Prod.mk.injEq] at h
        obtain ⟨hp, ht, ha⟩ := h
        subst hp ht ha
        have := ih p' t' a' h2
        simp [this]

/-! ## Claim C3 -/

/-- C3: for a template containing the meet-grid opening tag and the
performance-panel anchor (first matches `(p1, t1, r1)` and `(p2, t2, r2)`,
in that order), `inject_cards_into_template` returns the prefix through the
meet-grid tag, a newline, the cards, a newline, then the template text from
the performance-panel anchor to the end, which is hence an unchanged suffix
of the result.  (The embedding is a pure function: the input template value
is not mutated.) -/
theorem C3_inject_cards_placement (t c p1 t1 r1 p2 t2 r2 : Str)
    (h1 : findDivTag meetGridId t = some (p1, t1, r1))
    (h2 : findDivTag performancePanelId t = some (p2, t2, r2))
    (_horder : p1.length + t1.length ≤ p2.length) :
    inject_cards_into_template t c =
        .ok (p1 ++ t1 ++ '\n' :: (c ++ '\n' :: (t2 ++ r2)))
      ∧ t = p2 ++ (t2 ++ r2)
      ∧ ∃ q, p1 ++ t1 ++ '\n' :: (c ++ '\n' :: (t2 ++ r2)) = q ++ (t2 ++ r2) := by
  refine ⟨?_, ?_, ?_⟩
  · rw [inject_cards_into_template, h1, h2]
  · have := findDivTag_sound _ _ _ _ _ h2
    simpa [List.append_assoc] using this
  · exact ⟨p1 ++ t1 ++ '\n' :: (c ++ ['\n']), by simp⟩

/-- Witness for C3 at a concrete template. -/
theorem C3_inject_cards_placement_witness :
    inject_cards_into_template
        (("<div id=\"meet-grid\">X<div id=\"performance-panel\">Y").toList)
        (("C").toList) =
      .ok ((("<div id=\"meet-grid\">").toList) ++ '\n' ::
        ((("C").toList) ++ '\n' :: ((("<div id=\"performance-panel\">").toList ++ ("Y").toList))) ) :=
  (C3_inject_cards_placement
    (("<div id=\"meet-grid\">X<div id=\"performance-panel\">Y").toList)
    (("C").toList)
    [] (("<div id=\"meet-grid\">").toList) (("X<div id=\"performance-panel\">Y").toList)
    (("<div id=\"meet-grid\">X").toList) (("<div id=\"performance-panel\">").toList) (("Y").toList)
    (by decide) (by decide) (by decide)).1

/-! ## Claim C4 -/

/-- C4 (amended): `read_sections` raises `FormatError` exactly when the
`Bio` or `Results` marker is absent, and additionally raises an
index-out-of-range error (a distinct, third failure kind) exactly when both
markers are present but the row after a marker (its header row) is missing;
`inject_cards_into_template` raises `FormatError` exactly when an anchor is
absent; `safe` never fails: a blank or missing value becomes the default,
anything else its stripped self. -/
theorem C4_failure_model :
    (∀ rows : List (List Str),
        read_sections rows = .error .formatError ↔
          (rows.findIdx? (isMarkerRow bioMarker) = none ∨
            rows.findIdx? (isMarkerRow resultsMarker) = none))
  ∧ (∀ rows : List (List Str),
        read_sections rows = .error .indexError ↔
          (∃ b res, rows.findIdx? (isMarkerRow bioMarker) = some b ∧
            rows.findIdx? (isMarkerRow resultsMarker) = some res ∧
            (rows[b + 1]? = none ∨ rows[res + 1]? = none)))
  ∧ (∀ t c : Str,
        inject_cards_into_template t c = .error .formatError ↔
          (findDivTag meetGridId t = none ∨ findDivTag performancePanelId t = none))
  ∧ (∀ (v : Option Str) (d : Str),
        (pyStrip (v.getD []) = [] → safe v d = d) ∧
        (pyStrip (v.getD []) ≠ [] → safe v d = pyStrip (v.getD []))) := by
  refine ⟨?_, ?_, ?_, ?_⟩
  · intro rows
    cases hb : rows.findIdx? (isMarkerRow bioMarker) with
    | none => simp [read_sections, hb]
    | some b =>
      cases hres : rows.findIdx? (isMarkerRow resultsMarker) with
      | none => simp [read_sections, hb, hres]
      | some res =>
        simp only [read_sections, hb, hres]
        cases hx : rows[b + 1]? with
        | none => simp [hx]
        | some bh =>
          cases hy : rows[res + 1]? with
          | none => simp [hy]
          | some rh => simp [hx, hy]
  · intro rows
    cases hb : rows.findIdx? (isMarkerRow bioMarker) with
    | none => simp [read_sections, hb]
    | some b =>
      cases hres : rows.findIdx? (isMarkerRow resultsMarker) with
      | none => simp [read_sections, hb, hres]
      | some res =>
        simp only [read_sections, hb, hres]
        cases hx : rows[b + 1]? with
        | none =>
          constructor
          · intro _; exact ⟨b, res, rfl, rfl, Or.inl hx⟩
          · intro _; trivial
        | some bh =>
          cases hy : rows[res + 1]? with
          | none =>
            constructor
            · intro _; exact ⟨b, res, rfl, rfl, Or.inr hy⟩
            · intro _; trivial
          | some rh =>
            constructor
            · intro h; exact Except.noConfusion h
            · rintro ⟨b', res', hbb, hrr, hc | hc⟩
              · obtain rfl : b' = b := by injection hbb with h'; exact h'.symm
                rw [hx] at hc; exact Option.noConfusion hc
              · obtain rfl : res' = res := by injection hrr with h'; exact h'.symm
                rw [hy] at hc; exact Option.noConfusion hc
  · intro t c
    cases h1 : findDivTag meetGridId t with
    | none => simp [inject_cards_into_template, h1]
    | some pr1 =>
      obtain ⟨p1, t1, r1⟩ := pr1
      cases h2 : findDivTag performancePanelId t with
      | none => simp [inject_cards_into_template, h1, h2]
      | some pr2 =>
        obtain ⟨p2, t2, r2⟩ := pr2
        simp [inject_cards_into_template, h1, h2]
  · intro v d
    constructor <;> intro h <;> simp [safe, h]

/-- Witness for C4 at concrete inputs. -/
theorem C4_failure_model_witness :
    safe none nACh = nACh ∧ read_sections [] = .error .formatError := by
  constructor
  · exact (C4_failure_model.2.2.2 none nACh).1 (by decide)
  · exact (C4_failure_model.1 []).mpr (Or.inl (by decide))

/-- Counterexample to C4 as stated: a CSV whose `Bio` and `Results` markers
are both present but whose `Results` marker is the last row makes
`read_sections` raise an index-out-of-range error — a fatal failure that is
not a `FormatError`, so the program does not have exactly two fatal failure
kinds both raised as `FormatError`. -/
theorem C4_counterexample :
    read_sections [[("Bio").toList], [("h").toList], [("Results").toList]] =
        .error .indexError
    ∧ PyErr.indexError ≠ PyErr.formatError
    ∧ List.findIdx? (isMarkerRow bioMarker)
        [[("Bio").toList], [("h").toList], [("Results").toList]] = some 0
    ∧ List.findIdx? (isMarkerRow resultsMarker)
        [[("Bio").toList], [("h").toList], [("Results").toList]] = some 2 := by
  decide

/-! ## Claim C10 -/

/-- C10 (amended): when both markers are present, the first `Results` marker
precedes the first `Bio` marker, and a row follows the `Bio` marker,
`read_sections` raises no error: the bio data rows are empty and the results
rows are every row after the `Results` header row — including the `Bio`
marker row itself whenever it lies after the `Results` header row.  (When
the `Bio` marker is the last row, `read_sections` instead raises an
index-out-of-range error: `C10_counterexample`.) -/
theorem C10_reversed_markers (rows : List (List Str)) (b res : Nat)
    (hb : rows.findIdx? (isMarkerRow bioMarker) = some b)
    (hres : rows.findIdx? (isMarkerRow resultsMarker) = some res)
    (horder : res < b) (hlen : b + 1 < rows.length) :
    read_sections rows =
        .ok (rows.get ⟨b + 1, hlen⟩, [],
          rows.get ⟨res + 1, by omega⟩, rows.drop (res + 2))
    ∧ (res + 2 ≤ b → rows.get ⟨b, by omega⟩ ∈ rows.drop (res + 2)) := by
  constructor
  · have hx : rows[b + 1]? = some (rows.get ⟨b + 1, hlen⟩) :=
      List.getElem?_eq_getElem hlen
    have hy : rows[res + 1]? = some (rows.get ⟨res + 1, by omega⟩) :=
      List.getElem?_eq_getElem (by omega)
    simp only [read_sections, hb, hres, hx, hy]
    have hempty : res - (b + 2) = 0 := by omega
    simp [hempty]
  · intro hle
    have hblt : b < rows.length := by omega
    have hj : b - (res + 2) < (rows.drop (res + 2)).length := by
      simp [List.length_drop]; omega
    have : (rows.drop (res + 2)).get ⟨b - (res + 2), hj⟩ = rows.get ⟨b, by omega⟩ := by
      simp only [List.get_eq_getElem, List.getElem_drop]
      congr 1
      omega
    rw [← this]
    exact List.get_mem _ _ _

/-- Witness for C10 at a concrete reversed-marker CSV. -/
theorem C10_reversed_markers_witness :
    read_sections
        [[("Results").toList], [("rh").toList], [("r1").toList],
         [("Bio").toList], [("bh").toList]] =
      .ok ([("bh").toList], [], [("rh").toList],
        [[("r1").toList], [("Bio").toList], [("bh").toList]]) := by
  have h := (C10_reversed_markers
    [[("Results").toList], [("rh").toList], [("r1").toList],
     [("Bio").toList], [("bh").toList]]
    3 0 (by decide) (by decide) (by omega) (by decide)).1
  exact h

/-- Counterexample to C10 as stated: both markers present with `Results`
first, yet `read_sections` raises an error (the `Bio` marker is the last
row, so its header row is out of range). -/
theorem C10_counterexample :
    read_sections [[("Results").toList], [("Bio").toList]] = .error .indexError
    ∧ List.findIdx? (isMarkerRow resultsMarker)
        [[("Results").toList], [("Bio").toList]] = some 0
    ∧ List.findIdx? (isMarkerRow bioMarker)
        [[("Results").toList], [("Bio").toList]] = some 1 := by
  decide

/-! ## Claim C8 -/

/-- C8 (amended): for any configured base and fallback URL, a photo filename
whose stripped form is non-empty and does not equal `"N/A"` up to ASCII case
resolves to the base URL concatenated with the stripped filename; a blank
filename, or one equal to `"N/A"` ignoring case (the code compares
`fn.upper() == "N/A"`, so `"n/a"` also takes this branch —
`C8_counterexample`), resolves to the stripped fallback URL, or to the empty
string (image omitted) when the fallback is blank. -/
theorem C8_image_url_policy (base fb : Str) (p : Option Str) :
    (pyStrip (p.getD []) ≠ [] → pyUpper (pyStrip (p.getD [])) ≠ nACh →
      image_urlWith base fb p = base ++ pyStrip (p.getD []))
  ∧ ((pyStrip (p.getD []) = [] ∨ pyUpper (pyStrip (p.getD [])) = nACh) →
      image_urlWith base fb p = if pyStrip fb = [] then ([] : Str) else pyStrip fb) := by
  constructor
  · intro h1 h2
    rw [image_urlWith, if_neg]
    intro h
    rcases h with h | h
    · exact h1 h
    · exact h2 h
  · intro h
    rw [image_urlWith, if_pos h]

/-- Witness for C8 at concrete inputs. -/
theorem C8_image_url_policy_witness :
    image_urlWith IMAGE_BASE DEFAULT_IMAGE_URL (some (("foo.jpg").toList)) =
        IMAGE_BASE ++ pyStrip ((some (("foo.jpg").toList)).getD [])
    ∧ image_urlWith IMAGE_BASE DEFAULT_IMAGE_URL (some nACh) =
        (if pyStrip DEFAULT_IMAGE_URL = [] then ([] : Str) else pyStrip DEFAULT_IMAGE_URL) :=
  ⟨(C8_image_url_policy IMAGE_BASE DEFAULT_IMAGE_URL (some (("foo.jpg").toList))).1
      (by decide) (by decide),
   (C8_image_url_policy IMAGE_BASE DEFAULT_IMAGE_URL (some nACh)).2
      (Or.inr (by decide))⟩

/-- Counterexample to C8 as stated: the filename `"n/a"` is non-blank and is
not the literal `"N/A"`, yet `image_url` returns the fallback URL, not
`IMAGE_BASE ++ "n/a"` — the comparison is case-insensitive. -/
theorem C8_counterexample :
    image_url (some (("n/a").toList)) = DEFAULT_IMAGE_URL
    ∧ image_url (some (("n/a").toList)) ≠ IMAGE_BASE ++ ("n/a").toList
    ∧ pyStrip (("n/a").toList) = ("n/a").toList
    ∧ ("n/a").toList ≠ nACh := by
  decide

/-! ## Decimal-representation lemmas (card identifiers) -/

/-- The number denoted by a digit string (left inverse of `natDigits`). -/
def valOf (s : Str) : Nat := s.foldl (fun a c => a * 10 + dval c) 0

theorem valOf_append (xs : Str) (c : Char) :
    valOf (xs ++ [c]) = valOf xs * 10 + dval c := by
  simp [valOf, List.foldl_append]

theorem dval_digitChar (n : Nat) (h : n < 10) : dval (digitChar n) = n := by
  interval_cases n <;> decide

theorem natDigitsAux_val : ∀ fuel n, n < fuel → valOf (natDigitsAux fuel n) = n := by
  intro fuel
  induction fuel with
  | zero => intro n h; omega
  | succ f ih =>
    intro n h
    rw [natDigitsAux]
    by_cases h10 : n < 10
    · rw [if_pos h10]
      simp [valOf]
      exact dval_digitChar n h10
    · rw [if_neg h10, valOf_append]
      have hd : n / 10 < n := Nat.div_lt_self (by omega) (by omega)
      rw [ih _ (by omega), dval_digitChar _ (Nat.mod_lt _ (by omega))]
      omega

theorem natDigits_val (n : Nat) : valOf (natDigits n) = n :=
  natDigitsAux_val (n + 1) n (by omega)

theorem natDigits_inj (m n : Nat) (h : natDigits m = natDigits n) : m = n := by
  have hm := natDigits_val m
  rw [h, natDigits_val] at hm
  exact hm.symm

theorem detailsId_inj (m n : Nat) (h : detailsId m = detailsId n) : m = n :=
  natDigits_inj m n (List.append_cancel_left h)

theorem titleId_inj (m n : Nat) (h : titleId m = titleId n) : m = n := by
  have h1 := List.append_cancel_right h
  exact natDigits_inj m n (List.append_cancel_left h1)

/-! ## Segment containment -/

/-- The segment `seg` occurs contiguously inside `s`. -/
def containsSeg (seg s : Str) : Prop := ∃ u v, s = u ++ (seg ++ v)

theorem containsSeg_end (seg x : Str) : containsSeg seg (x ++ seg) :=
  ⟨x, [], by simp⟩

theorem containsSeg_appR (seg s y : Str) (h : containsSeg seg s) :
    containsSeg seg (s ++ y) := by
  obtain ⟨u, v, rfl⟩ := h
  exact ⟨u, v ++ y, by simp⟩

theorem containsSeg_appL (seg s x : Str) (h : containsSeg seg s) :
    containsSeg seg (x ++ s) := by
  obtain ⟨u, v, rfl⟩ := h
  exact ⟨x ++ u, v, by simp⟩

/-! ## Card list lemmas -/

theorem buildCardsFrom_length : ∀ (i : Nat) (l : List Record),
    (buildCardsFrom i l).length = l.length := by
  intro i l
  induction l generalizing i with
  | nil => simp [buildCardsFrom]
  | cons r rs ih => simp [buildCardsFrom, ih]

theorem buildCardsFrom_ne_nil (i : Nat) (l : List Record) (h : l ≠ []) :
    buildCardsFrom i l ≠ [] := by
  cases l with
  | nil => exact absurd rfl h
  | cons r rs => simp [buildCardsFrom]

theorem buildCardsFrom_get : ∀ (l : List Record) (i j : Nat)
    (h1 : j < (buildCardsFrom i l).length) (h2 : j < l.length),
    (buildCardsFrom i l).get ⟨j, h1⟩ = meetCard (i + j) (l.get ⟨j, h2⟩) := by
  intro l
  induction l with
  | nil => intro i j h1 h2; simp at h2
  | cons r rs ih =>
    intro i j h1 h2
    cases j with
    | zero => simp [buildCardsFrom]
    | succ j' =>
      have h1' : j' < (buildCardsFrom (i + 1) rs).length := by
        have hx := h1
        simp only [buildCardsFrom, List.length_cons] at hx
        omega
      have h2' : j' < rs.length := Nat.lt_of_succ_lt_succ h2
      have : (buildCardsFrom i (r :: rs)).get ⟨j' + 1, h1⟩ =
          (buildCardsFrom (i + 1) rs).get ⟨j', h1'⟩ := rfl
      rw [this, ih (i + 1) j' h1' h2']
      congr 1
      omega

theorem meetCard_contains_detailsId (i : Nat) (r : Record) :
    containsSeg (detailsId i) (meetCard i r) := by
  rw [meetCard]
  iterate 9 apply containsSeg_appR
  exact containsSeg_end _ _

theorem meetCard_contains_titleId (i : Nat) (r : Record) :
    containsSeg (titleId i) (meetCard i r) := by
  rw [meetCard]
  iterate 17 apply containsSeg_appR
  exact containsSeg_end _ _

/-! ## Claim C5 -/

/-- C5: with no filtered records, `build_meet_cards` yields exactly the
"No meets found" placeholder; with `N ≥ 1` filtered records it yields the
concatenation of exactly `N` card fragments, the `j`-th (0-based) being
`meetCard (1+j)` of the `j`-th filtered record, which contains the
identifier pair `race-details-(1+j)` / `meet-(1+j)-title`; distinct indices
give distinct identifiers, so the `N` pairs `race-details-1..N`,
`meet-1..N-title` are sequential and pairwise distinct. -/
theorem C5_cards_count_ids (yf : Option Str) (recs : List Record) :
    (filteredRecords yf recs = [] → build_meet_cards yf recs = noMeetsHtml)
  ∧ (buildCardsFrom 1 (filteredRecords yf recs)).length = (filteredRecords yf recs).length
  ∧ (filteredRecords yf recs ≠ [] →
      build_meet_cards yf recs = concatAll (buildCardsFrom 1 (filteredRecords yf recs)))
  ∧ (∀ j (h1 : j < (buildCardsFrom 1 (filteredRecords yf recs)).length)
        (h2 : j < (filteredRecords yf recs).length),
      (buildCardsFrom 1 (filteredRecords yf recs)).get ⟨j, h1⟩ =
        meetCard (1 + j) ((filteredRecords yf recs).get ⟨j, h2⟩))
  ∧ (∀ (i : Nat) (r : Record),
      containsSeg (detailsId i) (meetCard i r) ∧ containsSeg (titleId i) (meetCard i r))
  ∧ (∀ m n : Nat, detailsId m = detailsId n → m = n)
  ∧ (∀ m n : Nat, titleId m = titleId n → m = n) := by
  refine ⟨?_, buildCardsFrom_length 1 _, ?_, ?_, ?_, detailsId_inj, titleId_inj⟩
  · intro h
    simp [build_meet_cards, h, buildCardsFrom]
  · intro h
    rw [build_meet_cards, if_neg (buildCardsFrom_ne_nil 1 _ h)]
  · intro j h1 h2
    exact buildCardsFrom_get _ 1 j h1 h2
  · intro i r
    exact ⟨meetCard_contains_detailsId i r, meetCard_contains_titleId i r⟩

/-- Witness for C5 at a concrete two-record input. -/
theorem C5_cards_count_ids_witness :
    build_meet_cards none [[(meetNameKey, ("A").toList)], [(meetNameKey, ("B").toList)]] =
      concatAll (buildCardsFrom 1 (filteredRecords none
        [[(meetNameKey, ("A").toList)], [(meetNameKey, ("B").toList)]])) ∧
    (buildCardsFrom 1 (filteredRecords none
        [[(meetNameKey, ("A").toList)], [(meetNameKey, ("B").toList)]])).length = 2 := by
  have h := C5_cards_count_ids none
    [[(meetNameKey, ("A").toList)], [(meetNameKey, ("B").toList)]]
  refine ⟨h.2.2.1 (by decide), ?_⟩
  rw [h.2.1]
  decide

/-! ## Claim C7 -/

theorem filteredRecords_none (recs : List Record) : filteredRecords none recs = recs := by
  simp [filteredRecords, keepRecord]

theorem filteredRecords_mem (y : Str) (recs : List Record) (r : Record) :
    r ∈ filteredRecords (some y) recs ↔
      r ∈ recs ∧ year_from_date (pyStrip (rgetD r dateKey)) = y := by
  simp [filteredRecords, List.mem_filter, keepRecord]

set_option maxRecDepth 4000 in
/-- C7 (amended): with the year filter unset every record passes through
both builders; with the filter set to `y`, a record is included exactly when
the first boundary-delimited `20xx` match of its date field
(`year_from_date`) equals `y` — not merely when the date contains a matching
four-digit year somewhere (`C7_counterexample`).  On the spec's example,
records dated `3/1/2024` and `3/1/2025` with filter `2025` leave only the
second in the card output and in the race-series output. -/
theorem C7_year_filter (recs : List Record) (y : Str) (r : Record) :
    filteredRecords none recs = recs
  ∧ (r ∈ filteredRecords (some y) recs ↔
      r ∈ recs ∧ year_from_date (pyStrip (rgetD r dateKey)) = y)
  ∧ buildPoints none recs = recs.map toSortPoint
  ∧ filteredRecords (some (("2025").toList))
      [[(dateKey, ("3/1/2024").toList)], [(dateKey, ("3/1/2025").toList)]] =
      [[(dateKey, ("3/1/2025").toList)]]
  ∧ build_meet_cards (some (("2025").toList))
      [[(dateKey, ("3/1/2024").toList)], [(dateKey, ("3/1/2025").toList)]] =
      meetCard 1 [(dateKey, ("3/1/2025").toList)]
  ∧ build_race_series (some (("2025").toList))
      [[(dateKey, ("3/1/2024").toList)], [(dateKey, ("3/1/2025").toList)]] =
      [(toSortPoint [(dateKey, ("3/1/2025").toList)]).pt] := by
  refine ⟨filteredRecords_none recs, filteredRecords_mem y recs r, ?_, by decide, by decide,
    by decide⟩
  simp only [buildPoints, filteredRecords_none]

/-- Witness for C7's membership characterization at concrete records. -/
theorem C7_year_filter_witness :
    [(dateKey, ("3/1/2025").toList)] ∈ filteredRecords (some (("2025").toList))
      [[(dateKey, ("3/1/2024").toList)], [(dateKey, ("3/1/2025").toList)]] :=
  (C7_year_filter [[(dateKey, ("3/1/2024").toList)], [(dateKey, ("3/1/2025").toList)]]
    (("2025").toList) [(dateKey, ("3/1/2025").toList)]).2.1.mpr ⟨by decide, by decide⟩

set_option maxRecDepth 4000 in
/-- Counterexample to C7 as stated: the date `"2024 2025"` contains the
boundary-delimited four-digit year `2025` matching the filter, yet the
record is excluded from both outputs, because `year_from_date` returns the
first `20xx` match (`"2024"`). -/
theorem C7_counterexample :
    build_meet_cards (some (("2025").toList)) [[(dateKey, ("2024 2025").toList)]] =
        noMeetsHtml
  ∧ build_race_series (some (("2025").toList)) [[(dateKey, ("2024 2025").toList)]] = []
  ∧ containsSeg (("2025").toList) (("2024 2025").toList)
  ∧ yearHere (some ' ') (("2025").toList) = some (("2025").toList)
  ∧ year_from_date (("2024 2025").toList) = ("2024").toList := by
  exact ⟨by decide, by decide, ⟨("2024 ").toList, [], by decide⟩, by decide, by decide⟩

/-! ## Claim C1 -/

theorem image_url_ne_nil (p : Option Str) : image_url p ≠ [] := by
  rw [image_url, image_urlWith]
  split
  · have h : pyStrip DEFAULT_IMAGE_URL ≠ [] := by decide
    rw [if_neg h]
    exact h
  · intro h
    rw [List.append_eq_nil] at h
    exact absurd h.1 (by decide)

/-- With the source's configuration constants an image source URL always
resolves, so every card embeds an `<img>` element. -/
theorem imgHtmlOf_eq (r : Record) (meet : Str) :
    imgHtmlOf r meet =
      ("<img src=\"").toList ++
      pyEscape (image_url (some (pyStrip (rgetD r photoFileNameKey)))) ++
      ("\" alt=\"").toList ++
      image_alt_text r (("Photo from ").toList ++ meet ++ (".").toList) ++
      ("\" loading=\"lazy\" decoding=\"async\">").toList := by
  rw [imgHtmlOf, if_neg (image_url_ne_nil _)]

/-- C1 (amended): in every card the meet name, date, time, grade, overall
place and image URL are HTML-escaped at their interpolation sites, but the
image alt text — the trimmed `AltText` field when non-blank, else the
generated `Photo from {meet}.` fallback — is embedded verbatim, without
escaping (`C1_counterexample` exhibits raw markup flowing into the `alt`
attribute). -/
theorem C1_escaped_except_alt (i : Nat) (r : Record) :
    containsSeg (("<h3 id=\"").toList ++ titleId i ++ ("\">").toList ++
      pyEscape (safe (rget r meetNameKey) nACh) ++ ("</h3>").toList) (meetCard i r)
  ∧ containsSeg (("<p><strong>Date:</strong> ").toList ++
      pyEscape (safe (rget r dateKey) nACh) ++ ("</p>").toList) (meetCard i r)
  ∧ containsSeg (("<p><strong>Time:</strong> ").toList ++
      pyEscape (safe (rget r timeKey) nACh) ++ ("</p>").toList) (meetCard i r)
  ∧ containsSeg (("<p><strong>Grade:</strong> ").toList ++
      pyEscape (safe (rget r gradeKey) nACh) ++ ("</p>").toList) (meetCard i r)
  ∧ containsSeg (("<p><strong>Overall place:</strong> ").toList ++
      pyEscape (safe (rget r overallPlaceKey) nACh) ++ ("</p>").toList) (meetCard i r)
  ∧ containsSeg (("<img src=\"").toList ++
      pyEscape (image_url (some (pyStrip (rgetD r photoFileNameKey)))) ++
      ("\" alt=\"").toList ++
      image_alt_text r (("Photo from ").toList ++ safe (rget r meetNameKey) nACh ++ (".").toList) ++
      ("\" loading=\"lazy\" decoding=\"async\">").toList) (meetCard i r)
  ∧ (∀ fb : Str, pyStrip (rgetD r (("AltText").toList)) ≠ [] →
      image_alt_text r fb = pyStrip (rgetD r (("AltText").toList))) := by
  refine ⟨?_, ?_, ?_, ?_, ?_, ?_, ?_⟩
  · rw [meetCard]
    iterate 15 apply containsSeg_appR
    exact containsSeg_end _ _
  · rw [meetCard]
    iterate 7 apply containsSeg_appR
    exact containsSeg_end _ _
  · rw [meetCard]
    iterate 5 apply containsSeg_appR
    exact containsSeg_end _ _
  · rw [meetCard]
    iterate 3 apply containsSeg_appR
    exact containsSeg_end _ _
  · rw [meetCard]
    iterate 1 apply containsSeg_appR
    exact containsSeg_end _ _
  · rw [meetCard, imgHtmlOf_eq]
    iterate 13 apply containsSeg_appR
    exact containsSeg_end _ _
  · intro fb h
    rw [image_alt_text, if_neg h]

/-- Witness for C1's raw-alt-text conjunct at a concrete record. -/
theorem C1_escaped_except_alt_witness :
    image_alt_text [((("AltText").toList), ("<i>").toList)] nACh = ("<i>").toList :=
  (C1_escaped_except_alt 1 [((("AltText").toList), ("<i>").toList)]).2.2.2.2.2.2
    nACh (by decide)

set_option maxRecDepth 4000 in
/-- Counterexample to C1 as stated: with `AltText` equal to `"<i>"`, the
generated markup contains the raw attribute text `alt="<i>"` and not the
escaped `alt="&lt;i&gt;"`, so the alt text is interpolated without being
HTML-escaped. -/
theorem C1_counterexample :
    (findSub (("alt=\"<i>\"").toList)
        (build_meet_cards none [[(("AltText").toList, ("<i>").toList)]])).isSome = true
  ∧ findSub (("alt=\"&lt;i&gt;\"").toList)
        (build_meet_cards none [[(("AltText").toList, ("<i>").toList)]]) = none
  ∧ pyEscape (("<i>").toList) = ("&lt;i&gt;").toList
  ∧ pyEscape (("<i>").toList) ≠ ("<i>").toList := by
  decide

/-! ## Claim C9 -/

theorem mem_pyStrip (c : Char) (s : Str) (h : c ∈ pyStrip s) : c ∈ s := by
  rw [pyStrip] at h
  rw [List.mem_reverse] at h
  have h1 : c ∈ (s.dropWhile pyIsSpace).reverse :=
    List.Sublist.mem h (List.dropWhile_sublist _)
  rw [List.mem_reverse] at h1
  exact List.Sublist.mem h1 (List.dropWhile_sublist _)

theorem pyEscape_no_backslash : ∀ s : Str, '\\' ∉ s → '\\' ∉ pyEscape s := by
  intro s
  induction s with
  | nil => intro _ h; simp [pyEscape] at h
  | cons c cs ih =>
    intro h hmem
    have hc : c ≠ '\\' := by
      intro e
      exact h (e ▸ List.mem_cons_self c cs)
    have hcs : '\\' ∉ cs := fun e => h (List.mem_cons_of_mem _ e)
    rw [pyEscape] at hmem
    rcases List.mem_append.mp hmem with h1 | h2
    · rw [escChar] at h1
      split at h1
      · exact absurd h1 (by decide)
      · split at h1
        · exact absurd h1 (by decide)
        · split at h1
          · exact absurd h1 (by decide)
          · split at h1
            · exact absurd h1 (by decide)
            · split at h1
              · exact absurd h1 (by decide)
              · rw [List.mem_singleton] at h1
                exact hc (h1 ▸ rfl)
    · exact ih hcs h2

theorem pyReplCompileAux_lit : ∀ (fuel : Nat) (s : Str), s.length < fuel → '\\' ∉ s →
    pyReplCompileAux fuel s = .ok (s.map .lit) := by
  intro fuel
  induction fuel with
  | zero => intro s h _; omega
  | succ f ih =>
    intro s hlen hnb
    cases s with
    | nil => rfl
    | cons c cs =>
      have hc : c ≠ '\\' := by
        intro e
        exact hnb (e ▸ List.mem_cons_self c cs)
      have hcs : '\\' ∉ cs := fun e => hnb (List.mem_cons_of_mem _ e)
      rw [pyReplCompileAux.eq_def]
      dsimp only
      rw [if_neg hc, ih cs (by simp at hlen; omega) hcs]
      rfl

theorem expandItems_map_lit (m : Str) : ∀ s : Str, expandItems m (s.map .lit) = s := by
  intro s
  induction s with
  | nil => rfl
  | cons c cs ih => simp [expandItems, ih]

/-- C9 (amended): a blank (empty or whitespace-only) name leaves the
document unchanged, as does a document with no `<h1>...</h1>` match; when
the first `<h1>` has a matching `</h1>` and the name contains no backslash,
the match is replaced by `<h1>` + escaped trimmed name + `</h1>` with the
prefix and suffix of the document unchanged.  (Backslashes in the name are
re-interpreted by `re.sub` replacement-template processing and can alter
the inserted text or raise `re.error`: `C9_counterexample`.) -/
theorem C9_replace_first_h1 (docHtml newName : Str) :
    (pyStrip newName = [] → replace_first_h1 docHtml newName = .ok docHtml)
  ∧ (pyStrip newName ≠ [] → '\\' ∉ newName →
      (findSub h1Open docHtml = none → replace_first_h1 docHtml newName = .ok docHtml)
    ∧ (∀ i, findSub h1Open docHtml = some i →
        (findSub h1Close (docHtml.drop (i + 4)) = none →
          replace_first_h1 docHtml newName = .ok docHtml)
      ∧ (∀ j, findSub h1Close (docHtml.drop (i + 4)) = some j →
          replace_first_h1 docHtml newName =
            .ok (docHtml.take i ++
              (h1Open ++ pyEscape (pyStrip newName) ++ h1Close) ++
              docHtml.drop (i + 4 + j + 5))))) := by
  constructor
  · intro h
    rw [replace_first_h1, if_pos h]
  · intro hne hnb
    have hnb1 : '\\' ∉ pyStrip newName := fun e => hnb (mem_pyStrip _ _ e)
    have hnb2 : '\\' ∉ pyEscape (pyStrip newName) := pyEscape_no_backslash _ hnb1
    have hnb3 : '\\' ∉ (h1Open ++ pyEscape (pyStrip newName) ++ h1Close) := by
      intro hm
      rcases List.mem_append.mp hm with hm1 | hm2
      · rcases List.mem_append.mp hm1 with hm3 | hm4
        · exact absurd hm3 (by decide)
        · exact hnb2 hm4
      · exact absurd hm2 (by decide)
    have hcomp : pyReplCompile (h1Open ++ pyEscape (pyStrip newName) ++ h1Close) =
        .ok ((h1Open ++ pyEscape (pyStrip newName) ++ h1Close).map .lit) :=
      pyReplCompileAux_lit _ _ (by omega) hnb3
    refine ⟨?_, ?_⟩
    · intro hfo
      simp only [replace_first_h1, if_neg hne, hcomp, hfo]
    · intro i hi
      refine ⟨?_, ?_⟩
      · intro hfc
        simp only [replace_first_h1, if_neg hne, hcomp, hi, hfc]
      · intro j hj
        simp only [replace_first_h1, if_neg hne, hcomp, hi, hj, expandItems_map_lit]

/-- Witness for C9 at a concrete document and name. -/
theorem C9_replace_first_h1_witness :
    replace_first_h1 (("<h1>Old</h1>").toList) (("Bob & Ann").toList) =
      .ok ((("<h1>Old</h1>").toList).take 0 ++
        (h1Open ++ pyEscape (pyStrip (("Bob & Ann").toList)) ++ h1Close) ++
        (("<h1>Old</h1>").toList).drop (0 + 4 + 3 + 5)) :=
  ((((C9_replace_first_h1 (("<h1>Old</h1>").toList) (("Bob & Ann").toList)).2
    (by decide) (by decide)).2 0 (by decide)).2 3 (by decide))

/-- Counterexample to C9 as stated: the (non-blank) athlete name `\n`
(backslash, letter n) does not yield a heading whose inner text is the
escaped trimmed name — `re.sub` replacement-template processing turns the
backslash escape into a newline character. -/
theorem C9_counterexample :
    replace_first_h1 (("<h1>x</h1>").toList) (("\\n").toList) =
        .ok (("<h1>\n</h1>").toList)
    ∧ ("<h1>\n</h1>").toList ≠
        ("<h1>").toList ++ pyEscape (pyStrip (("\\n").toList)) ++ ("</h1>").toList := by
  decide

/-! ## Claim C6: order lemmas -/

theorem strLE_refl : ∀ a : Str, strLE a a = true := by
  intro a
  induction a with
  | nil => rfl
  | cons x xs ih =>
    rw [strLE, if_neg (by omega), if_neg (by omega)]
    exact ih

theorem strLE_total : ∀ a b : Str, strLE a b = true ∨ strLE b a = true := by
  intro a
  induction a with
  | nil => intro b; left; rfl
  | cons x xs ih =>
    intro b
    cases b with
    | nil => right; rfl
    | cons y ys =>
      rcases Nat.lt_trichotomy x.toNat y.toNat with h | h | h
      · left; rw [strLE, if_pos h]
      · rw [strLE, strLE, if_neg (by omega), if_neg (by omega),
          if_neg (by omega), if_neg (by omega)]
        exact ih ys
      · right; rw [strLE, if_pos h]

theorem strLE_trans : ∀ a b c : Str,
    strLE a b = true → strLE b c = true → strLE a c = true := by
  intro a
  induction a with
  | nil => intro b c _ _; rfl
  | cons x xs ih =>
    intro b c hab hbc
    cases b with
    | nil => rw [strLE] at hab; exact absurd hab (by simp)
    | cons y ys =>
      cases c with
      | nil => rw [strLE] at hbc; exact absurd hbc (by simp)
      | cons z zs =>
        rw [strLE] at hab hbc
        by_cases h1 : x.toNat < y.toNat
        · by_cases h2 : y.toNat < z.toNat
          · rw [strLE, if_pos (by omega)]
          · by_cases h3 : z.toNat < y.toNat
            · rw [if_neg h2, if_pos h3] at hbc; exact absurd hbc (by simp)
            · rw [strLE, if_pos (by omega)]
        · rw [if_neg h1] at hab
          by_cases h4 : y.toNat < x.toNat
          · rw [if_pos h4] at hab; exact absurd hab (by simp)
          · rw [if_neg h4] at hab
            by_cases h2 : y.toNat < z.toNat
            · rw [strLE, if_pos (by omega)]
            · by_cases h3 : z.toNat < y.toNat
              · rw [if_neg h2, if_pos h3] at hbc; exact absurd hbc (by simp)
              · rw [if_neg h2, if_neg h3] at hbc
                rw [strLE, if_neg (by omega), if_neg (by omega)]
                exact ih ys zs hab hbc

theorem keyLE_total (p q : SortPoint) : keyLE p q = true ∨ keyLE q p = true := by
  by_cases hp : p.sortKey = [] <;> by_cases hq : q.sortKey = []
  · left; simp [keyLE, hp, hq, strLE]
  · right; simp [keyLE, hp, hq]
  · left; simp [keyLE, hp, hq]
  · rcases strLE_total p.sortKey q.sortKey with h | h
    · left; simp [keyLE, hp, hq, h]
    · right; simp [keyLE, hp, hq, h]

theorem keyLE_trans (p q r : SortPoint)
    (hpq : keyLE p q = true) (hqr : keyLE q r = true) : keyLE p r = true := by
  by_cases hp : p.sortKey = [] <;> by_cases hq : q.sortKey = [] <;>
    by_cases hr : r.sortKey = [] <;>
      simp_all [keyLE, strLE]
  exact strLE_trans _ _ _ hpq hqr

/-- A `keyLE` step out of an empty key forces an empty key. -/
theorem keyLE_empty_left (p q : SortPoint) (hp : p.sortKey = [])
    (h : keyLE p q = true) : q.sortKey = [] := by
  by_cases hq : q.sortKey = []
  · exact hq
  · simp [keyLE, hp, hq] at h

/-- The strict order `keyLT` never holds between equal keys. -/
theorem keyLT_ne_keys (y x : SortPoint) (h : keyLT y x = true) :
    y.sortKey ≠ x.sortKey := by
  intro he
  rw [keyLT, Bool.and_eq_true, Bool.not_eq_true'] at h
  have : keyLE x y = true := by
    rw [keyLE]
    by_cases hx : x.sortKey = [] <;> simp [hx, he ▸ hx, he.symm, strLE_refl]
  rw [this] at h
  exact absurd h.2 (by simp)

theorem keyLE_of_not_keyLT (y x : SortPoint) (h : keyLT y x = false) :
    keyLE x y = true := by
  rw [keyLT] at h
  rcases Bool.and_eq_false_iff.mp h with h1 | h1
  · rcases keyLE_total y x with h2 | h2
    · rw [h2] at h1; exact absurd h1 (by simp)
    · exact h2
  · simpa using h1

theorem insertKey_perm (x : SortPoint) : ∀ l, (insertKey x l).Perm (x :: l) := by
  intro l
  induction l with
  | nil => exact List.Perm.refl _
  | cons y ys ih =>
    rw [insertKey]
    by_cases h : keyLT y x = true
    · rw [if_pos h]
      exact (ih.cons y).trans (List.Perm.swap x y ys)
    · rw [if_neg h]

theorem insertKey_mem (x z : SortPoint) (l : List SortPoint)
    (h : z ∈ insertKey x l) : z = x ∨ z ∈ l := by
  have := (insertKey_perm x l).mem_iff.mp h
  simpa using this

theorem insertKey_pairwise (x : SortPoint) :
    ∀ l, List.Pairwise (fun p q => keyLE p q = true) l →
      List.Pairwise (fun p q => keyLE p q = true) (insertKey x l) := by
  intro l
  induction l with
  | nil => intro _; simp [insertKey]
  | cons y ys ih =>
    intro hp
    rw [List.pairwise_cons] at hp
    obtain ⟨hy, hys⟩ := hp
    rw [insertKey]
    by_cases h : keyLT y x = true
    · rw [if_pos h]
      rw [List.pairwise_cons]
      refine ⟨?_, ih hys⟩
      intro z hz
      rcases insertKey_mem x z ys hz with rfl | hz'
      · have h' := h
        rw [keyLT, Bool.and_eq_true] at h'
        exact h'.1
      · exact hy z hz'
    · rw [if_neg h]
      have hxy : keyLE x y = true := keyLE_of_not_keyLT y x (by simpa using h)
      rw [List.pairwise_cons]
      refine ⟨?_, List.pairwise_cons.mpr ⟨hy, hys⟩⟩
      intro z hz
      rcases List.mem_cons.mp hz with rfl | hz'
      · exact hxy
      · exact keyLE_trans x y z hxy (hy z hz')

theorem insertKey_filter (x : SortPoint) (k : Str) :
    ∀ l, (insertKey x l).filter (fun p => decide (p.sortKey = k)) =
      if x.sortKey = k then x :: l.filter (fun p => decide (p.sortKey = k))
      else l.filter (fun p => decide (p.sortKey = k)) := by
  intro l
  induction l with
  | nil =>
    rw [insertKey]
    by_cases hx : x.sortKey = k <;> simp [hx]
  | cons y ys ih =>
    rw [insertKey]
    by_cases h : keyLT y x = true
    · rw [if_pos h]
      by_cases hy : y.sortKey = k
      · by_cases hx : x.sortKey = k
        · exact absurd (hy.trans hx.symm) (keyLT_ne_keys y x h)
        · simp [List.filter_cons, hy, hx, ih]
      · simp [List.filter_cons, hy, ih]
    · rw [if_neg h]
      by_cases hx : x.sortKey = k <;> simp [List.filter_cons, hx]

theorem stableSortKey_perm : ∀ l, (stableSortKey l).Perm l := by
  intro l
  induction l with
  | nil => exact List.Perm.refl _
  | cons x xs ih =>
    rw [stableSortKey]
    exact (insertKey_perm x (stableSortKey xs)).trans (ih.cons x)

theorem stableSortKey_pairwise : ∀ l,
    List.Pairwise (fun p q => keyLE p q = true) (stableSortKey l) := by
  intro l
  induction l with
  | nil => simp [stableSortKey]
  | cons x xs ih =>
    rw [stableSortKey]
    exact insertKey_pairwise x _ ih

theorem stableSortKey_filter (k : Str) : ∀ l,
    (stableSortKey l).filter (fun p => decide (p.sortKey = k)) =
      l.filter (fun p => decide (p.sortKey = k)) := by
  intro l
  induction l with
  | nil => rfl
  | cons x xs ih =>
    rw [stableSortKey, insertKey_filter]
    by_cases hx : x.sortKey = k
    · rw [if_pos hx, ih]
      simp [List.filter_cons, hx]
    · rw [if_neg hx, ih]
      simp [List.filter_cons, hx]

theorem isoDate_ne_nil (y m d : Nat) : isoDate y m d ≠ [] := by
  intro h
  rw [isoDate, List.append_eq_nil] at h
  exact List.noConfusion h.2

theorem dateSortKey_empty_iff (ds : Str) :
    dateSortKey ds = [] ↔ tryFormats dateFormats ds = none := by
  cases h : tryFormats dateFormats ds with
  | none => simp [dateSortKey, h]
  | some v =>
    obtain ⟨y, m, d⟩ := v
    simp only [dateSortKey, h]
    constructor
    · intro he; exact absurd he (isoDate_ne_nil y m d)
    · intro he; exact Option.noConfusion he

/-- C6: the race-series output is the stable sort of its points by the key
pair (key-is-empty, key): the sorted list is a permutation of the built
points, pairwise ordered by `keyLE` (ascending date sort key, with empty
keys after every non-empty key), equal keys keep their input order (the
filter by any fixed key is unchanged by sorting), each point's sort key is
the date field parsed against the fixed ordered format list, and the key is
empty exactly when no format parses. -/
theorem C6_race_series_order (yf : Option Str) (recs : List Record) :
    build_race_series yf recs = (stableSortKey (buildPoints yf recs)).map SortPoint.pt
  ∧ (stableSortKey (buildPoints yf recs)).Perm (buildPoints yf recs)
  ∧ List.Pairwise (fun p q => keyLE p q = true) (stableSortKey (buildPoints yf recs))
  ∧ (∀ i j (hi : i < (stableSortKey (buildPoints yf recs)).length)
        (hj : j < (stableSortKey (buildPoints yf recs)).length), i < j →
      ((stableSortKey (buildPoints yf recs)).get ⟨i, hi⟩).sortKey = [] →
      ((stableSortKey (buildPoints yf recs)).get ⟨j, hj⟩).sortKey = [])
  ∧ (∀ k : Str, (stableSortKey (buildPoints yf recs)).filter
        (fun p => decide (p.sortKey = k)) =
      (buildPoints yf recs).filter (fun p => decide (p.sortKey = k)))
  ∧ (∀ r : Record, (toSortPoint r).sortKey = dateSortKey (pyStrip (rgetD r dateKey)))
  ∧ (∀ ds : Str, dateSortKey ds = [] ↔ tryFormats dateFormats ds = none) := by
  refine ⟨rfl, stableSortKey_perm _, stableSortKey_pairwise _, ?_,
    fun k => stableSortKey_filter k _, fun r => rfl, dateSortKey_empty_iff⟩
  intro i j hi hj hij hempty
  have hpair := stableSortKey_pairwise (buildPoints yf recs)
  rw [List.pairwise_iff_getElem] at hpair
  have hle := hpair i j hi hj hij
  exact keyLE_empty_left _ _ hempty hle

/-- Witness for C6's empty-keys-last conjunct at concrete records. -/
theorem C6_race_series_order_witness :
    ((stableSortKey (buildPoints none
        [[(dateKey, ("x").toList)], [(dateKey, ("y").toList)]])).get
      ⟨1, by decide⟩).sortKey = [] :=
  (C6_race_series_order none
    [[(dateKey, ("x").toList)], [(dateKey, ("y").toList)]]).2.2.2.1
    0 1 (by decide) (by decide) (by decide) (by decide)

/-! ## Claim C2: time parsing -/

theorem upper_ne_nA (t : Str) (h : ':' ∈ t) : pyUpper t ≠ nACh := by
  intro he
  have hm : ':' ∈ pyUpper t := by
    rw [pyUpper]
    exact List.mem_map.mpr ⟨':', h, by decide⟩
  rw [he] at hm
  exact absurd hm (by decide)

theorem splitFirst_append (a r : Str) (ha : ':' ∉ a) :
    splitFirst ':' (a ++ ':' :: r) = some (a, r) := by
  induction a with
  | nil => simp [splitFirst]
  | cons c cs ih =>
    have hc : c ≠ ':' := by
      intro e
      exact ha (e ▸ List.mem_cons_self c cs)
    have hcs : ':' ∉ cs := fun e => ha (List.mem_cons_of_mem _ e)
    rw [List.cons_append, splitFirst, if_neg hc, ih hcs]
    rfl

theorem count_colon_two (a b c : Str) (ha : ':' ∉ a) (hb : ':' ∉ b) (hc : ':' ∉ c) :
    (a ++ ':' :: (b ++ ':' :: c)).count ':' = 2 := by
  rw [List.count_append, List.count_cons, List.count_append, List.count_cons]
  rw [List.count_eq_zero.mpr ha, List.count_eq_zero.mpr hb, List.count_eq_zero.mpr hc]
  simp

theorem count_colon_one (a b : Str) (ha : ':' ∉ a) (hb : ':' ∉ b) :
    (a ++ ':' :: b).count ':' = 1 := by
  rw [List.count_append, List.count_cons]
  rw [List.count_eq_zero.mpr ha, List.count_eq_zero.mpr hb]
  simp

theorem decVal_addInt (m num : Int) (s : Nat) :
    decVal (m * ((10 ^ s : ℕ) : ℤ) + num) s = (m : ℚ) + decVal num s := by
  have h10 : ((10 : ℚ)) ^ s ≠ 0 := pow_ne_zero _ (by norm_num)
  rw [decVal, decVal]
  push_cast
  field_simp

theorem parseTime_hms (a b c : Str) (x y num : Int) (s : Nat)
    (ha : ':' ∉ a) (hb : ':' ∉ b) (hc : ':' ∉ c)
    (hstrip : pyStrip (a ++ ':' :: (b ++ ':' :: c)) = a ++ ':' :: (b ++ ':' :: c))
    (hxa : pyIntParse a = some x) (hxb : pyIntParse b = some y)
    (hfc : pyFloatParse c = some (.finite num s)) :
    parse_time_to_seconds (a ++ ':' :: (b ++ ':' :: c)) =
      some (.finite ((x * 3600 + y * 60) * ((10 ^ s : ℕ) : ℤ) + num) s) := by
  have hne : (a ++ ':' :: (b ++ ':' :: c)) ≠ [] := by cases a <;> simp
  have hmem : ':' ∈ a ++ ':' :: (b ++ ':' :: c) := by simp
  have hupper := upper_ne_nA _ hmem
  have hcnt := count_colon_two a b c ha hb hc
  have hs1 : splitFirst ':' (a ++ ':' :: (b ++ ':' :: c)) = some (a, b ++ ':' :: c) :=
    splitFirst_append a _ ha
  have hs2 : splitFirst ':' (b ++ ':' :: c) = some (b, c) := splitFirst_append b c hb
  rw [parse_time_to_seconds, hstrip, parseTimeStripped,
    if_neg (by push_neg; exact ⟨hne, hupper⟩), if_pos hcnt]
  simp only [hs1, hs2, hxa, hxb, hfc, PyFloat.addInt]

theorem parseTime_ms (a b : Str) (x num : Int) (s : Nat)
    (ha : ':' ∉ a) (hb : ':' ∉ b)
    (hstrip : pyStrip (a ++ ':' :: b) = a ++ ':' :: b)
    (hxa : pyIntParse a = some x)
    (hfb : pyFloatParse b = some (.finite num s)) :
    parse_time_to_seconds (a ++ ':' :: b) =
      some (.finite ((x * 60) * ((10 ^ s : ℕ) : ℤ) + num) s) := by
  have hne : (a ++ ':' :: b) ≠ [] := by cases a <;> simp
  have hmem : ':' ∈ a ++ ':' :: b := by simp
  have hupper := upper_ne_nA _ hmem
  have hcnt := count_colon_one a b ha hb
  have hs1 : splitFirst ':' (a ++ ':' :: b) = some (a, b) := splitFirst_append a b ha
  rw [parse_time_to_seconds, hstrip, parseTimeStripped,
    if_neg (by push_neg; exact ⟨hne, hupper⟩), if_neg (by rw [hcnt]; decide),
    if_pos hcnt]
  simp only [hs1, hxa, hfb, PyFloat.addInt]

theorem parseTime_bare (t : Str) (v : PyFloat)
    (hcol : ':' ∉ t) (hstrip : pyStrip t = t) (hupper : pyUpper t ≠ nACh)
    (hf : pyFloatParse t = some v) :
    parse_time_to_seconds t = some v := by
  have hnil : pyFloatParse ([] : Str) = none := by decide
  have hne : t ≠ [] := by
    intro e
    rw [e, hnil] at hf
    exact Option.noConfusion hf
  have hcnt : t.count ':' = 0 := List.count_eq_zero.mpr hcol
  rw [parse_time_to_seconds, hstrip, parseTimeStripped,
    if_neg (by push_neg; exact ⟨hne, hupper⟩), if_neg (by rw [hcnt]; decide),
    if_neg (by rw [hcnt]; decide)]
  exact hf

theorem parseTime_inv (t : Str) (v : PyFloat) (h : parse_time_to_seconds t = some v) :
    pyStrip t ≠ [] ∧ pyUpper (pyStrip t) ≠ nACh ∧
    (((pyStrip t).count ':' = 2 ∧ ∃ a r b c x y f,
        splitFirst ':' (pyStrip t) = some (a, r) ∧ splitFirst ':' r = some (b, c) ∧
        pyIntParse a = some x ∧ pyIntParse b = some y ∧ pyFloatParse c = some f ∧
        v = f.addInt (x * 3600 + y * 60))
    ∨ ((pyStrip t).count ':' ≠ 2 ∧ (pyStrip t).count ':' = 1 ∧ ∃ a b x f,
        splitFirst ':' (pyStrip t) = some (a, b) ∧ pyIntParse a = some x ∧
        pyFloatParse b = some f ∧ v = f.addInt (x * 60))
    ∨ ((pyStrip t).count ':' ≠ 2 ∧ (pyStrip t).count ':' ≠ 1 ∧
        pyFloatParse (pyStrip t) = some v)) := by
  rw [parse_time_to_seconds, parseTimeStripped] at h
  split at h
  · exact Option.noConfusion h
  · rename_i hcond1
    push_neg at hcond1
    refine ⟨hcond1.1, hcond1.2, ?_⟩
    split at h
    · rename_i hcnt2
      split at h
      · rename_i a r hs1
        split at h
        · rename_i b c hs2
          split at h
          · rename_i x y f hxa hxb hfc
            left
            exact ⟨hcnt2, a, r, b, c, x, y, f, hs1, hs2, hxa, hxb, hfc,
              (Option.some_inj.mp h).symm⟩
          · exact Option.noConfusion h
        · exact Option.noConfusion h
      · exact Option.noConfusion h
    · rename_i hcnt2
      split at h
      · rename_i hcnt1
        split at h
        · rename_i a b hs1
          split at h
          · rename_i x f hxa hfb
            right; left
            exact ⟨hcnt2, hcnt1, a, b, x, f, hs1, hxa, hfb,
              (Option.some_inj.mp h).symm⟩
          · exact Option.noConfusion h
        · exact Option.noConfusion h
      · rename_i hcnt1
        right; right
        exact ⟨hcnt2, hcnt1, h⟩

set_option maxRecDepth 4000 in
/-- C2: `parse_time_to_seconds` maps `"5:23.4"` to 323.4 (= 3234/10)
seconds, `"1:05:00"` to 3900.0, `"45"` to 45.0, and `""` / `"N/A"` to an
absent value; in general it accepts `H:MM:SS`, `MM:SS` and bare-seconds
forms (Python `int` for the leading fields, `float` — fractional part
allowed — for the last), and every accepted input decomposes into one of
the three forms (`parseTime_inv` conjunct), so any string matching none of
them yields `none` rather than an error (the embedding is a total
function). -/
theorem C2_parse_time (t0 : Str) (v0 : PyFloat) :
    (parse_time_to_seconds (("5:23.4").toList) = some (.finite 3234 1) ∧
      decVal 3234 1 = 3234 / 10)
  ∧ (parse_time_to_seconds (("1:05:00").toList) = some (.finite 3900 0) ∧
      decVal 3900 0 = 3900)
  ∧ (parse_time_to_seconds (("45").toList) = some (.finite 45 0) ∧
      decVal 45 0 = 45)
  ∧ parse_time_to_seconds [] = none
  ∧ parse_time_to_seconds nACh = none
  ∧ (∀ (a b c : Str) (x y num : Int) (s : Nat),
      ':' ∉ a → ':' ∉ b → ':' ∉ c →
      pyStrip (a ++ ':' :: (b ++ ':' :: c)) = a ++ ':' :: (b ++ ':' :: c) →
      pyIntParse a = some x → pyIntParse b = some y →
      pyFloatParse c = some (.finite num s) →
      parse_time_to_seconds (a ++ ':' :: (b ++ ':' :: c)) =
        some (.finite ((x * 3600 + y * 60) * ((10 ^ s : ℕ) : ℤ) + num) s) ∧
      decVal ((x * 3600 + y * 60) * ((10 ^ s : ℕ) : ℤ) + num) s =
        (x : ℚ) * 3600 + (y : ℚ) * 60 + decVal num s)
  ∧ (∀ (a b : Str) (x num : Int) (s : Nat),
      ':' ∉ a → ':' ∉ b →
      pyStrip (a ++ ':' :: b) = a ++ ':' :: b →
      pyIntParse a = some x → pyFloatParse b = some (.finite num s) →
      parse_time_to_seconds (a ++ ':' :: b) =
        some (.finite ((x * 60) * ((10 ^ s : ℕ) : ℤ) + num) s) ∧
      decVal ((x * 60) * ((10 ^ s : ℕ) : ℤ) + num) s = (x : ℚ) * 60 + decVal num s)
  ∧ (∀ (t : Str) (v : PyFloat),
      ':' ∉ t → pyStrip t = t → pyUpper t ≠ nACh →
      pyFloatParse t = some v → parse_time_to_seconds t = some v)
  ∧ (parse_time_to_seconds t0 = some v0 →
      pyStrip t0 ≠ [] ∧ pyUpper (pyStrip t0) ≠ nACh ∧
      (((pyStrip t0).count ':' = 2 ∧ ∃ a r b c x y f,
          splitFirst ':' (pyStrip t0) = some (a, r) ∧ splitFirst ':' r = some (b, c) ∧
          pyIntParse a = some x ∧ pyIntParse b = some y ∧ pyFloatParse c = some f ∧
          v0 = f.addInt (x * 3600 + y * 60))
      ∨ ((pyStrip t0).count ':' ≠ 2 ∧ (pyStrip t0).count ':' = 1 ∧ ∃ a b x f,
          splitFirst ':' (pyStrip t0) = some (a, b) ∧ pyIntParse a = some x ∧
          pyFloatParse b = some f ∧ v0 = f.addInt (x * 60))
      ∨ ((pyStrip t0).count ':' ≠ 2 ∧ (pyStrip t0).count ':' ≠ 1 ∧
          pyFloatParse (pyStrip t0) = some v0))) := by
  refine ⟨⟨by decide, by norm_num [decVal]⟩, ⟨by decide, by norm_num [decVal]⟩,
    ⟨by decide, by norm_num [decVal]⟩, by decide, by decide, ?_, ?_, parseTime_bare,
    parseTime_inv t0 v0⟩
  · intro a b c x y num s ha hb hc hstrip hxa hxb hfc
    refine ⟨parseTime_hms a b c x y num s ha hb hc hstrip hxa hxb hfc, ?_⟩
    rw [decVal_addInt]
    push_cast
    ring
  · intro a b x num s ha hb hstrip hxa hfb
    refine ⟨parseTime_ms a b x num s ha hb hstrip hxa hfb, ?_⟩
    rw [decVal_addInt]
    push_cast
    ring

/-- Witness for C2's general `H:MM:SS` conjunct at a concrete time string. -/
theorem C2_parse_time_witness :
    parse_time_to_seconds ((("12").toList) ++ ':' :: ((("34").toList) ++ ':' :: (("56.7").toList))) =
      some (.finite ((12 * 3600 + 34 * 60) * ((10 ^ 1 : ℕ) : ℤ) + 567) 1) :=
  ((C2_parse_time [] .nan).2.2.2.2.2.1 (("12").toList) (("34").toList) (("56.7").toList)
    12 34 567 1 (by decide) (by decide) (by decide) (by decide) (by decide) (by decide)
    (by decide)).1

end BlueSlate
